import Mathlib

/-!
Verification of the Gemini-CLI LINE-bot repository.

Shallow embedding of the Python sources:
  * main.py            — webhook handler `handle_message` (command routing,
                         workdir session store, directive extraction, reply
                         sequencing);
  * src/command.py     — `execute_command` (shell mode of the process runner);
  * src/gemini.py      — `run_gemini` (tool mode of the process runner);
  * src/history.py     — `save_history` / `load_history`;
  * src/llm_api.py     — `gemini_chat` (model-completion collaborator,
                         modelled at the Python calling convention to capture
                         its positional-argument signature).

Python strings are modelled as Lean `String` (a wrapper around `List Char`),
with Python's `str` operations (slicing, `strip`, `startswith`) re-implemented
on the character list.  The filesystem is a parameter `fs : PyPath → Bool`
standing for `Path.is_dir`.  External subprocesses and the Gemini API are
parameters returning their observable outcome, as the spec treats them as
external collaborators.
-/

/-! ## Python string primitives over `List Char` -/

/-- Whitespace stripped by Python's `str.strip()` (ASCII part). -/
def pyWs (c : Char) : Bool :=
  c = ' ' || c = '\t' || c = '\n' || c = '\r' || c = '\x0b' || c = '\x0c'

/-- `str.strip()` on a character list: drop whitespace from both ends. -/
def trimList (s : List Char) : List Char :=
  ((s.dropWhile pyWs).reverse.dropWhile pyWs).reverse

/-- `str.strip()`. -/
def pyTrim (s : String) : String := String.mk (trimList s.data)

/-- Does `pat` occur at the very start of `s`? -/
def matchesAt : List Char → List Char → Bool
  | [], _ => true
  | _ :: _, [] => false
  | p :: ps, c :: cs => p == c && matchesAt ps cs

/-- `str.startswith(pre)`. -/
def pyStartsWith (s pre : String) : Bool := matchesAt pre.data s.data

/-- `s[n:]` (character slicing). -/
def pyDrop (s : String) (n : Nat) : String := String.mk (s.data.drop n)

/-- Does `pat` occur anywhere in `s` (as a contiguous substring)? -/
def hasSub (pat s : List Char) : Bool :=
  (List.range (s.length + 1)).any fun i => matchesAt pat (s.drop i)

/-! ## Directive protocol codec (main.py lines 208–215)

The Python code uses `re.search(r"<gemini-cli>(.*?)</gemini-cli>", text,
re.DOTALL)` and `re.sub` with the same pattern.  With `re.DOTALL` the
non-greedy group matches any characters, so the regex semantics are: the
match starts at the leftmost opening tag that is followed (anywhere later)
by a closing tag, and the group extends to the first closing tag after that
opening.  `re.sub` removes every such non-overlapping match, scanning left
to right.  `searchSplit` and `removeAll` below implement exactly that. -/

def openTag : List Char := "<gemini-cli>".data

def closeTag : List Char := "</gemini-cli>".data

/-- Find the first closing tag: returns the characters before it and the
characters after it. -/
def splitClose : List Char → Option (List Char × List Char)
  | [] => none
  | c :: cs =>
    if matchesAt closeTag (c :: cs) then some ([], (c :: cs).drop closeTag.length)
    else (splitClose cs).map fun x => (c :: x.1, x.2)

/-- Leftmost non-greedy match of `<gemini-cli>(.*?)</gemini-cli>`:
returns `(before, group, after)` for the first match, or `none`. -/
def searchSplit : List Char → Option (List Char × List Char × List Char)
  | [] => none
  | c :: cs =>
    if matchesAt openTag (c :: cs) then
      match splitClose ((c :: cs).drop openTag.length) with
      | some x => some ([], x.1, x.2)
      | none => (searchSplit cs).map fun x => (c :: x.1, x.2.1, x.2.2)
    else (searchSplit cs).map fun x => (c :: x.1, x.2.1, x.2.2)

/-- `re.sub(pattern, "", s)`: remove every match, scanning left to right.
Fuel-indexed for structural recursion; each match consumes at least the two
tags, so `s.length` fuel always suffices. -/
def removeAllAux : Nat → List Char → List Char
  | 0, s => s
  | fuel + 1, s =>
    match searchSplit s with
    | none => s
    | some x => x.1 ++ removeAllAux fuel x.2.2

def removeAll (s : List Char) : List Char := removeAllAux s.length s

/-- The directive codec of `handle_message`: `re.search` for the first tag
pair; on a match, the directive is `match.group(1).strip()` and the
commentary is `re.sub(pattern, "", text).strip()`; otherwise the text is
returned unchanged with no directive. -/
def codec_extract (ai : String) : Option String × String :=
  match searchSplit ai.data with
  | some x => (some (String.mk (trimList x.2.1)), String.mk (trimList (removeAll ai.data)))
  | none => (none, ai)

/-! ## Command router (main.py lines 163–190)

The classification implicit in `handle_message`'s branching.  A command
whose text starts with `"cd"` but is neither exactly `"cd"` nor starts with
`"cd "` falls through every branch of the Python `if`/`elif` chain without
assigning `reply_text`, so the subsequent read of `reply_text` raises
`UnboundLocalError`; the `unboundLocalError` variant records that. -/

inductive RouteResult where
  | conversational (text : String)
  | workdirReset
  | workdirChange (arg : String)
  | workdirQuery
  | directCommand (text : String)
  | unboundLocalError
deriving DecidableEq, Repr

def classify (msg : String) : RouteResult :=
  if pyStartsWith msg "!" then
    let command := pyTrim (pyDrop msg 1)
    if pyStartsWith command "cd" then
      if command = "cd" then RouteResult.workdirReset
      else if pyStartsWith command "cd " then
        RouteResult.workdirChange (pyTrim (pyDrop command 3))
      else RouteResult.unboundLocalError
    else if command = "pwd" then RouteResult.workdirQuery
    else RouteResult.directCommand command
  else RouteResult.conversational msg

/-! ## Filesystem paths (`pathlib.Path`, POSIX flavour)

A path is an absolute/relative flag plus components.  As in `pathlib`,
parsing collapses repeated slashes and single dots but keeps `".."`.
`resolve` is modelled as lexical normalization of `".."` components; symlink
resolution and prepending the process working directory (for relative
paths — all call sites here resolve absolute paths) are outside the model.
The filesystem itself is a parameter `fs : PyPath → Bool` for `is_dir`. -/

structure PyPath where
  abs : Bool
  comps : List String
deriving DecidableEq, Repr

def splitSlashAux : List Char → List Char → List (List Char)
  | [], cur => [cur.reverse]
  | '/' :: rest, cur => cur.reverse :: splitSlashAux rest []
  | c :: rest, cur => splitSlashAux rest (c :: cur)

/-- `Path(s)` for a POSIX path string. -/
def PyPath.ofString (s : String) : PyPath :=
  ⟨pyStartsWith s "/",
   ((splitSlashAux s.data []).filter fun c => c ≠ [] && c ≠ ['.']).map String.mk⟩

/-- `str(path)`. -/
def PyPath.render : PyPath → String
  | ⟨true, cs⟩ => "/" ++ String.intercalate "/" cs
  | ⟨false, []⟩ => "."
  | ⟨false, cs⟩ => String.intercalate "/" cs

/-- `Path.expanduser()`: replace a leading `"~"` component by the home
directory. -/
def PyPath.expanduser (p home : PyPath) : PyPath :=
  match p with
  | ⟨false, "~" :: rest⟩ => ⟨home.abs, home.comps ++ rest⟩
  | q => q

/-- `parent / child` for a relative `child` (the only use in the sources);
an absolute `child` would replace `parent`, as in `pathlib`. -/
def PyPath.join (parent child : PyPath) : PyPath :=
  if child.abs then child else ⟨parent.abs, parent.comps ++ child.comps⟩

def resolveComps : List String → List String → List String
  | acc, [] => acc.reverse
  | acc, ".." :: rest =>
    match acc with
    | [] => resolveComps [] rest
    | _ :: more => resolveComps more rest
  | acc, c :: rest => resolveComps (c :: acc) rest

/-- `Path.resolve()` as lexical normalization of `".."`. -/
def PyPath.resolve (p : PyPath) : PyPath := ⟨p.abs, resolveComps [] p.comps⟩

/-! ## Process runner, shell mode (src/command.py)

`execute_command` validates the working directory and then runs the command
through the shell, combining stdout/stderr into one string.  The subprocess
outcome is the parameter `shellExec`; `ShellOutcome.raised` covers the final
`except Exception` branch.  The `sys.platform == "win32"` PowerShell lookup
is specialized away: the model targets the POSIX branch, where
`executable_shell` stays `None`. -/

inductive ShellOutcome where
  | completed (stdout stderr : String)
  | raised (msg : String)
deriving DecidableEq, Repr

def execute_command_run (shellExec : String → Option PyPath → ShellOutcome)
    (command : String) (cwd : Option PyPath) : String :=
  match shellExec command cwd with
  | ShellOutcome.completed out err =>
    let o := pyTrim out
    let e := pyTrim err
    if o ≠ "" ∧ e ≠ "" then "--- stdout ---\n" ++ o ++ "\n--- stderr ---\n" ++ e
    else if o ≠ "" then o
    else if e ≠ "" then e
    else "Command executed successfully with no output."
  | ShellOutcome.raised m => "An unexpected error occurred: " ++ m

def execute_command (fs : PyPath → Bool) (home : PyPath)
    (shellExec : String → Option PyPath → ShellOutcome)
    (command : String) (workdir : Option PyPath) : String :=
  match workdir with
  | some w =>
    let cwd := (w.expanduser home).resolve
    if fs cwd then execute_command_run shellExec command (some cwd)
    else "Error: Directory \x27" ++ cwd.render ++ "\x27 not found."
  | none => execute_command_run shellExec command none

/-! ## Process runner, tool mode (src/gemini.py)

`run_gemini` raises `FileNotFoundError` for a missing workdir or missing
executable, and `RuntimeError` for a non-zero exit or other OS error; on
success it returns raw stdout.  Exceptions are modelled with `Except`. -/

inductive GeminiExn where
  | fileNotFound (msg : String)
  | runtimeError (msg : String)
deriving DecidableEq, Repr

/-- `str(e)` for the two exception types. -/
def GeminiExn.text : GeminiExn → String
  | GeminiExn.fileNotFound m => m
  | GeminiExn.runtimeError m => m

inductive ToolOutcome where
  | completed (returncode : Int) (stdout stderr : String)
  | fnfRaised
  | osRaised (msg : String)
deriving DecidableEq, Repr

def run_gemini_run (toolExec : String → Option PyPath → ToolOutcome)
    (prompt : String) (cwd : Option PyPath) : Except GeminiExn String :=
  match toolExec prompt cwd with
  | ToolOutcome.completed rc out err =>
    if rc ≠ 0 then
      Except.error (GeminiExn.runtimeError
        ("gemini exited with status " ++ toString rc ++ ": " ++ pyTrim err))
    else Except.ok out
  | ToolOutcome.fnfRaised =>
    Except.error (GeminiExn.fileNotFound
      "Executable \x27gemini\x27 not found. Is Gemini CLI installed?")
  | ToolOutcome.osRaised m =>
    Except.error (GeminiExn.runtimeError ("OS error while running gemini: " ++ m))

def run_gemini (fs : PyPath → Bool) (home : PyPath)
    (toolExec : String → Option PyPath → ToolOutcome)
    (prompt : String) (workdir : Option PyPath) : Except GeminiExn String :=
  match workdir with
  | some w =>
    let cwd := (w.expanduser home).resolve
    if fs cwd then run_gemini_run toolExec prompt (some cwd)
    else Except.error (GeminiExn.fileNotFound
      ("workdir \x27" ++ cwd.render ++ "\x27 is not an existing directory"))
  | none => run_gemini_run toolExec prompt none

/-! ## Conversation history (src/history.py)

A history file is the list of JSONL entries; `save_history` appends a user
entry and a model entry stamped with the same `datetime.now(JST)` value
(timestamps are abstracted to naturals), and `load_history` keeps the
entries strictly newer than the cutoff, in file order, converted to the
Gemini `contents` shape. -/

structure HistEntry where
  timestamp : Nat
  role : String
  content : String
deriving DecidableEq, Repr

structure ChatTurn where
  role : String
  parts : List String
deriving DecidableEq, Repr

def save_history (file : List HistEntry) (now : Nat)
    (userMessage modelResponse : String) : List HistEntry :=
  file ++ [⟨now, "user", userMessage⟩, ⟨now, "model", modelResponse⟩]

def load_history (file : List HistEntry) (limitTime : Nat) : List ChatTurn :=
  (file.filter fun e => decide (limitTime < e.timestamp)).map
    fun e => ⟨e.role, [e.content]⟩

/-- A history file built by replaying a sequence of `save_history` calls,
each given as `(timestamp, user_message, model_response)`. -/
def replay_saves (saves : List (Nat × String × String)) : List HistEntry :=
  saves.foldl (fun f s => save_history f s.1 s.2.1 s.2.2) []

/-! ## Model-completion collaborator (src/llm_api.py)

`gemini_chat` is declared `def gemini_chat(prompt: str, /, *, model: str =
"gemini-2.5-flash")`: exactly one positional-only parameter and one
keyword-only parameter.  Python's argument binding for a call with only
positional arguments is modelled by `gemini_chat_bind`.  `main.py` line 204
calls it with two positional arguments — the history with the current turn
appended, and `SYSTEM_PROMPT` — which `main_gemini_call_args` records. -/

inductive PyArg where
  | contents (cs : List ChatTurn)
  | str (s : String)
deriving DecidableEq, Repr

def gemini_chat_bind (posArgs : List PyArg) : Except String PyArg :=
  match posArgs with
  | [] => Except.error "gemini_chat() missing 1 required positional argument: \x27prompt\x27"
  | [p] => Except.ok p
  | ps => Except.error
      ("gemini_chat() takes 1 positional argument but " ++ toString ps.length ++ " were given")

def main_gemini_call_args (history : List ChatTurn) (userMessage sysPrompt : String) :
    List PyArg :=
  [PyArg.contents (history ++ [⟨"user", [userMessage]⟩]), PyArg.str sysPrompt]

/-! ## Conversation orchestrator (main.py `handle_message`)

The webhook handler, with the external collaborators as parameters bundled
in `Ctx`:
  * `fs` — the filesystem (`Path.is_dir`);
  * `modelComplete` — the model-completion call at the boundary shape
    `complete(history, instruction_preamble)` used by the call site
    (an `Except.error` is an exception raised by the collaborator);
  * `toolExec` / `shellExec` — subprocess outcomes for tool and shell mode;
  * `histLoaded` — the result of `load_history(user_id, hours_limit=12)`.

The per-user session store appears as the current `workdir` argument and the
`workdirAfter` output field.  `deliveries` records the outbound messages in
order: `Delivery.reply` is the single-use reply-token channel
(`reply_message` / `reply_message_with_http_info`), `Delivery.push` is the
addressed push channel (`push_message`).  `uncaught` is an exception
escaping `handle_message`; `saved` records the `save_history` call;
`toolRuns` records the prompts passed to `run_gemini`. -/

inductive Delivery where
  | reply (text : String)
  | push (userId : String) (text : String)
deriving DecidableEq, Repr

def Delivery.isAck : Delivery → Bool
  | Delivery.reply _ => true
  | Delivery.push _ _ => false

/-- How many deliveries consumed the single-use reply token. -/
def ackCount (ds : List Delivery) : Nat := (ds.filter Delivery.isAck).length

structure Ctx where
  fs : PyPath → Bool
  home : PyPath
  defaultWorkdir : PyPath
  systemPrompt : String
  modelComplete : List ChatTurn → String → Except String String
  toolExec : String → Option PyPath → ToolOutcome
  shellExec : String → Option PyPath → ShellOutcome
  histLoaded : List ChatTurn

structure HandleOutput where
  deliveries : List Delivery
  workdirAfter : PyPath
  saved : Option (String × String)
  toolRuns : List String
  uncaught : Option String
deriving DecidableEq, Repr

/-- The requested `!cd` path after `Path(new_dir_str).expanduser()`
(main.py lines 174–176). -/
def cd_requested (home : PyPath) (arg : String) : PyPath :=
  (PyPath.ofString arg).expanduser home

/-- The `!cd` target: the requested path, resolved against the session's
current workdir when it is not absolute (main.py lines 177–179). -/
def cd_target (home workdir : PyPath) (arg : String) : PyPath :=
  let r := cd_requested home arg
  if r.abs then r else workdir.join r

/-- The push/reply payload built from the `run_gemini` call (main.py lines
227–231): success wraps stdout in the result banner, a caught
`FileNotFoundError` or `RuntimeError` becomes the error text. -/
def gemini_result_message (r : Except GeminiExn String) : String :=
  match r with
  | Except.ok out => "--- Gemini-CLI実行結果 ---\n" ++ out
  | Except.error e => "Gemini-CLIの実行中にエラーが発生しました:\n" ++ e.text

def handle_message (ctx : Ctx) (userId : String) (workdir : PyPath)
    (message : String) : HandleOutput :=
  match classify message with
  | RouteResult.workdirReset =>
    ⟨[Delivery.reply ("作業ディレクトリがデフォルトに戻りました:\n" ++ ctx.defaultWorkdir.render)],
     ctx.defaultWorkdir, none, [], none⟩
  | RouteResult.workdirChange arg =>
    let newDir := cd_target ctx.home workdir arg
    if ctx.fs newDir then
      ⟨[Delivery.reply ("作業ディレクトリが次に変更されました:\n" ++ newDir.resolve.render)],
       newDir.resolve, none, [], none⟩
    else
      ⟨[Delivery.reply ("エラー: ディレクトリ \x27" ++ newDir.render ++ "\x27 が見つかりません。")],
       workdir, none, [], none⟩
  | RouteResult.unboundLocalError =>
    ⟨[], workdir, none, [],
     some "UnboundLocalError: local variable \x27reply_text\x27 referenced before assignment"⟩
  | RouteResult.workdirQuery =>
    ⟨[Delivery.reply ("現在の作業ディレクトリ:\n" ++ workdir.render)], workdir, none, [], none⟩
  | RouteResult.directCommand cmd =>
    ⟨[Delivery.reply (execute_command ctx.fs ctx.home ctx.shellExec cmd (some workdir))],
     workdir, none, [], none⟩
  | RouteResult.conversational _ =>
    match ctx.modelComplete (ctx.histLoaded ++ [⟨"user", [message]⟩]) ctx.systemPrompt with
    | Except.error e => ⟨[], workdir, none, [], some e⟩
    | Except.ok aiResponse =>
      match searchSplit aiResponse.data with
      | some x =>
        let geminiPrompt := String.mk (trimList x.2.1)
        let supplement := String.mk (trimList (removeAll aiResponse.data))
        let resultMessage :=
          gemini_result_message (run_gemini ctx.fs ctx.home ctx.toolExec geminiPrompt (some workdir))
        if supplement = "" then
          ⟨[Delivery.reply resultMessage], workdir, some (message, aiResponse), [geminiPrompt], none⟩
        else
          ⟨[Delivery.reply supplement, Delivery.push userId resultMessage],
           workdir, some (message, aiResponse), [geminiPrompt], none⟩
      | none =>
        ⟨[Delivery.reply aiResponse], workdir, some (message, aiResponse), [], none⟩

/-! ## Lemmas about the codec scanner -/

theorem matchesAt_append_self : ∀ (p t : List Char), matchesAt p (p ++ t) = true
  | [], _ => rfl
  | c :: ps, t => by simp [matchesAt, matchesAt_append_self ps t]

theorem matchesAt_decomp : ∀ (p s : List Char), matchesAt p s = true → s = p ++ s.drop p.length
  | [], s, _ => by simp
  | _ :: _, [], h => by simp [matchesAt] at h
  | c :: ps, d :: cs, h => by
    simp only [matchesAt, Bool.and_eq_true, beq_iff_eq] at h
    obtain ⟨h1, h2⟩ := h
    have ih := matchesAt_decomp ps cs h2
    subst h1
    simpa using ih

theorem splitClose_some_eq : ∀ (s inn r : List Char),
    splitClose s = some (inn, r) → s = inn ++ closeTag ++ r
  | [], inn, r, h => by simp [splitClose] at h
  | c :: cs, inn, r, h => by
    by_cases hm : matchesAt closeTag (c :: cs)
    · simp only [splitClose, if_pos hm, Option.some.injEq, Prod.mk.injEq] at h
      obtain ⟨h1, h2⟩ := h
      subst h1; subst h2
      simpa using matchesAt_decomp closeTag (c :: cs) hm
    · simp only [splitClose, if_neg hm, Option.map_eq_some'] at h
      obtain ⟨⟨inn', r'⟩, hsc, hx⟩ := h
      obtain ⟨hx1, hx2⟩ := Prod.mk.injEq .. ▸ hx
      have ih := splitClose_some_eq cs inn' r' hsc
      subst hx1; subst hx2
      simp [ih]

theorem splitClose_of_matchesAt (s : List Char) (h : matchesAt closeTag s = true) :
    splitClose s = some ([], s.drop closeTag.length) := by
  cases s with
  | nil => exact absurd h (by decide)
  | cons c cs => simp [splitClose, h]

theorem splitClose_append : ∀ (inn a : List Char),
    (∀ i, i < inn.length → matchesAt closeTag ((inn ++ closeTag ++ a).drop i) = false) →
    splitClose (inn ++ closeTag ++ a) = some (inn, a)
  | [], a, _ => by
    rw [List.nil_append, splitClose_of_matchesAt (closeTag ++ a) (matchesAt_append_self closeTag a)]
    simp [List.drop_left]
  | c :: inn', a, h => by
    have h0 : matchesAt closeTag (c :: (inn' ++ closeTag ++ a)) = false := by
      simpa using h 0 (Nat.succ_pos _)
    have ih := splitClose_append inn' a (fun i hi => by
      have := h (i + 1) (Nat.succ_lt_succ hi)
      simpa using this)
    simp only [List.cons_append, List.append_assoc] at h0 ih ⊢
    simp [splitClose, h0, ih]

theorem searchSplit_some_eq : ∀ (s b inn r : List Char),
    searchSplit s = some (b, inn, r) → s = b ++ openTag ++ inn ++ closeTag ++ r
  | [], b, inn, r, h => by simp [searchSplit] at h
  | c :: cs, b, inn, r, h => by
    by_cases hm : matchesAt openTag (c :: cs)
    · cases hsc : splitClose ((c :: cs).drop openTag.length) with
      | some x =>
        simp only [searchSplit, if_pos hm, hsc, Option.some.injEq, Prod.mk.injEq] at h
        obtain ⟨h1, h2, h3⟩ := h
        have hd := matchesAt_decomp openTag (c :: cs) hm
        have he := splitClose_some_eq _ x.1 x.2 (by simpa using hsc)
        subst h1; subst h2; subst h3
        rw [hd, he]
        simp
      | none =>
        simp only [searchSplit, if_pos hm, hsc, Option.map_eq_some'] at h
        obtain ⟨y, hy, hx⟩ := h
        simp only [Prod.mk.injEq] at hx
        obtain ⟨h1, h2, h3⟩ := hx
        have ih := searchSplit_some_eq cs y.1 y.2.1 y.2.2 (by simpa using hy)
        subst h1; subst h2; subst h3
        simp [ih]
    · simp only [searchSplit, if_neg hm, Option.map_eq_some'] at h
      obtain ⟨y, hy, hx⟩ := h
      simp only [Prod.mk.injEq] at hx
      obtain ⟨h1, h2, h3⟩ := hx
      have ih := searchSplit_some_eq cs y.1 y.2.1 y.2.2 (by simpa using hy)
      subst h1; subst h2; subst h3
      simp [ih]

theorem searchSplit_of_found (s inn r : List Char) (hm : matchesAt openTag s = true)
    (hsc : splitClose (s.drop openTag.length) = some (inn, r)) :
    searchSplit s = some ([], inn, r) := by
  cases s with
  | nil => exact absurd hm (by decide)
  | cons c cs => simp [searchSplit, hm, hsc]

theorem searchSplit_append : ∀ (b inn a : List Char),
    (∀ i, i < b.length → matchesAt openTag ((b ++ openTag ++ inn ++ closeTag ++ a).drop i) = false) →
    (∀ i, i < inn.length → matchesAt closeTag ((inn ++ closeTag ++ a).drop i) = false) →
    searchSplit (b ++ openTag ++ inn ++ closeTag ++ a) = some (b, inn, a)
  | [], inn, a, _, h2 => by
    rw [List.nil_append]
    have hm : matchesAt openTag (openTag ++ (inn ++ closeTag ++ a)) = true :=
      matchesAt_append_self _ _
    have hd : (openTag ++ (inn ++ closeTag ++ a)).drop openTag.length = inn ++ closeTag ++ a :=
      List.drop_left _ _
    have hsc := splitClose_append inn a h2
    have := searchSplit_of_found (openTag ++ (inn ++ closeTag ++ a)) inn a hm (by rw [hd]; exact hsc)
    simpa [List.append_assoc] using this
  | c :: b', inn, a, h1, h2 => by
    have h0 : matchesAt openTag (c :: (b' ++ openTag ++ inn ++ closeTag ++ a)) = false := by
      simpa using h1 0 (Nat.succ_pos _)
    have ih := searchSplit_append b' inn a (fun i hi => by
      have := h1 (i + 1) (Nat.succ_lt_succ hi)
      simpa using this) h2
    simp only [List.cons_append, List.append_assoc] at h0 ih ⊢
    rw [searchSplit, if_neg (by simpa using h0), ih]
    rfl

theorem searchSplit_length (s b inn r : List Char) (h : searchSplit s = some (b, inn, r)) :
    r.length + 25 ≤ s.length := by
  have he := searchSplit_some_eq s b inn r h
  have h1 : openTag.length = 12 := by decide
  have h2 : closeTag.length = 13 := by decide
  rw [he]
  simp only [List.length_append, h1, h2]
  omega

theorem removeAllAux_fuel : ∀ (f1 f2 : Nat) (s : List Char),
    s.length ≤ f1 → s.length ≤ f2 → removeAllAux f1 s = removeAllAux f2 s := by
  intro f1
  induction f1 with
  | zero =>
    intro f2 s hs1 _
    have hnil : s = [] := List.eq_nil_of_length_eq_zero (Nat.le_zero.mp hs1)
    subst hnil
    cases f2 <;> simp [removeAllAux, searchSplit]
  | succ n ih =>
    intro f2 s hs1 hs2
    cases hss : searchSplit s with
    | none => cases f2 <;> simp [removeAllAux, hss]
    | some x =>
      have hlen := searchSplit_length s x.1 x.2.1 x.2.2 (by simpa using hss)
      cases f2 with
      | zero => omega
      | succ m =>
        simp only [removeAllAux, hss]
        congr 1
        exact ih m x.2.2 (by omega) (by omega)

theorem removeAll_eq_some (s b inn r : List Char) (h : searchSplit s = some (b, inn, r)) :
    removeAll s = b ++ removeAll r := by
  have hlen := searchSplit_length s b inn r h
  unfold removeAll
  obtain ⟨k, hk⟩ : ∃ k, s.length = k + 1 := ⟨s.length - 1, by omega⟩
  rw [hk]
  simp only [removeAllAux, h]
  congr 1
  exact removeAllAux_fuel k r.length r (by omega) (le_refl _)

theorem removeAll_eq_none (s : List Char) (h : searchSplit s = none) : removeAll s = s := by
  unfold removeAll
  cases hl : s.length with
  | zero => rfl
  | succ k => simp [removeAllAux, h]

theorem dropWhile_self_idem (p : Char → Bool) : ∀ (l : List Char),
    (l.dropWhile p).dropWhile p = l.dropWhile p
  | [] => rfl
  | c :: cs => by
    by_cases h : p c
    · simp [List.dropWhile_cons, h, dropWhile_self_idem p cs]
    · simp [List.dropWhile_cons, h]

theorem length_dropWhile_le' (p : Char → Bool) : ∀ (l : List Char),
    (l.dropWhile p).length ≤ l.length
  | [] => Nat.le_refl _
  | c :: cs => by
    by_cases h : p c
    · simp only [List.dropWhile_cons, h, if_true]
      exact Nat.le_trans (length_dropWhile_le' p cs) (Nat.le_succ _)
    · simp [List.dropWhile_cons, h]

theorem trimList_right_clean (l : List Char) :
    (trimList l).reverse.dropWhile pyWs = (trimList l).reverse := by
  unfold trimList
  rw [List.reverse_reverse]
  exact dropWhile_self_idem pyWs _

theorem trimList_left_clean (l : List Char) :
    (trimList l).dropWhile pyWs = trimList l := by
  unfold trimList
  have hmc : (l.dropWhile pyWs).dropWhile pyWs = l.dropWhile pyWs := dropWhile_self_idem pyWs l
  cases hX : ((l.dropWhile pyWs).reverse.dropWhile pyWs).reverse with
  | nil => simp [hX]
  | cons y ys =>
    have hdec := List.takeWhile_append_dropWhile (p := pyWs) (l := (l.dropWhile pyWs).reverse)
    have hm2 : l.dropWhile pyWs =
        y :: (ys ++ ((l.dropWhile pyWs).reverse.takeWhile pyWs).reverse) := by
      have hrev := congrArg List.reverse hdec
      rw [List.reverse_append, hX] at hrev
      rw [List.reverse_reverse] at hrev
      simpa using hrev.symm
    by_cases hy : pyWs y
    · exfalso
      rw [hm2, List.dropWhile_cons, if_pos hy] at hmc
      have hl := length_dropWhile_le' pyWs (ys ++ ((l.dropWhile pyWs).reverse.takeWhile pyWs).reverse)
      rw [hmc] at hl
      simp at hl
    · rw [List.dropWhile_cons, if_neg hy]

/-- `codec_extract` on an explicitly built string. -/
theorem codec_extract_mk (L : List Char) :
    codec_extract (String.mk L) =
      (match searchSplit L with
       | some x => (some (String.mk (trimList x.2.1)), String.mk (trimList (removeAll L)))
       | none => (none, String.mk L)) := rfl


/-! ## Claims -/

/-- C1: the conversational path builds the model-completion call with the
loaded history plus the current user turn and the instruction preamble as
two positional arguments, but `gemini_chat` accepts exactly one positional
argument, so Python's argument binding raises `TypeError` and no model reply
is ever received on this path. -/
theorem gemini_chat_call_arity_mismatch
    (history : List ChatTurn) (userMessage sysPrompt : String) :
    gemini_chat_bind (main_gemini_call_args history userMessage sysPrompt) =
      Except.error "gemini_chat() takes 1 positional argument but 2 were given" := by
  simp [gemini_chat_bind, main_gemini_call_args]
  decide

/-- C3: classification is not exception-free: the command text `"cdx"`
(message `"!cdx"`) starts with `"cd"` but is neither `"cd"` nor starts with
`"cd "`, so no branch assigns `reply_text` and the handler raises
`UnboundLocalError` instead of classifying it as a direct command. -/
theorem classify_cdx_unbound_local :
    classify "!cdx" = RouteResult.unboundLocalError ∧
    classify "!cdx" ≠ RouteResult.directCommand "cdx" := by
  constructor
  · decide
  · decide

/-- C5 counterexample: for `"A <gemini-cli>x</gemini-cli>"` the span-removed
original is `"A "` (with a trailing space), but the code strips the
commentary, returning `"A"`. -/
theorem codec_commentary_is_stripped :
    codec_extract "A <gemini-cli>x</gemini-cli>" = (some "x", "A") ∧
    ("A" : String) ≠ "A " := by
  constructor
  · decide
  · decide

/-- C5 amended: with exactly one well-formed tag pair the directive is the
trimmed group and the commentary is the original with the span removed and
then whitespace-trimmed; with no pair the text is returned unchanged. -/
theorem codec_round_trip :
    (∀ b inn a : List Char,
      (∀ i, i < b.length →
        matchesAt openTag ((b ++ openTag ++ inn ++ closeTag ++ a).drop i) = false) →
      (∀ i, i < inn.length →
        matchesAt closeTag ((inn ++ closeTag ++ a).drop i) = false) →
      searchSplit a = none →
      codec_extract (String.mk (b ++ openTag ++ inn ++ closeTag ++ a)) =
        (some (String.mk (trimList inn)), String.mk (trimList (b ++ a)))) ∧
    (∀ s : String, searchSplit s.data = none → codec_extract s = (none, s)) := by
  constructor
  · intro b inn a h1 h2 h3
    have hs : searchSplit (b ++ openTag ++ inn ++ closeTag ++ a) = some (b, inn, a) :=
      searchSplit_append b inn a h1 h2
    have hr : removeAll (b ++ openTag ++ inn ++ closeTag ++ a) = b ++ a := by
      rw [removeAll_eq_some _ b inn a hs, removeAll_eq_none a h3]
    rw [codec_extract_mk, hs, hr]
  · intro s h
    cases s with
    | mk L =>
      rw [codec_extract_mk, h]

/-- C5 amended, witness. -/
theorem codec_round_trip_witness :
    ((∀ i, i < ("A ".data).length →
        matchesAt openTag (("A ".data ++ openTag ++ " x ".data ++ closeTag ++ " B".data).drop i) = false) ∧
     (∀ i, i < (" x ".data).length →
        matchesAt closeTag ((" x ".data ++ closeTag ++ " B".data).drop i) = false) ∧
     searchSplit " B".data = none) ∧
    codec_extract (String.mk ("A ".data ++ openTag ++ " x ".data ++ closeTag ++ " B".data)) =
      (some (String.mk (trimList " x ".data)), String.mk (trimList ("A ".data ++ " B".data))) ∧
    codec_extract "plain" = (none, "plain") :=
  ⟨⟨by decide, by decide, by decide⟩,
   codec_round_trip.1 "A ".data " x ".data " B".data (by decide) (by decide) (by decide),
   codec_round_trip.2 "plain" (by decide)⟩

/-- C6 counterexample: with two well-formed pairs, the first group becomes
the directive, but `re.sub` removes *both* spans, so no tag text of the
second occurrence survives in the commentary. -/
theorem codec_second_pair_removed :
    codec_extract "<gemini-cli>a</gemini-cli>X<gemini-cli>b</gemini-cli>" = (some "a", "X") ∧
    hasSub openTag "X".data = false ∧ hasSub closeTag "X".data = false := by
  refine ⟨by decide, by decide, by decide⟩

/-- C6 amended: with two well-formed pairs only the first is extracted as
the directive, and the commentary is the original with *both* tagged spans
removed (and trimmed) — no residual tag text of the second pair remains. -/
theorem codec_first_of_two :
    ∀ b1 inn1 mid inn2 a : List Char,
      (∀ i, i < b1.length → matchesAt openTag
        ((b1 ++ openTag ++ inn1 ++ closeTag ++ (mid ++ openTag ++ inn2 ++ closeTag ++ a)).drop i)
          = false) →
      (∀ i, i < inn1.length → matchesAt closeTag
        ((inn1 ++ closeTag ++ (mid ++ openTag ++ inn2 ++ closeTag ++ a)).drop i) = false) →
      (∀ i, i < mid.length → matchesAt openTag
        ((mid ++ openTag ++ inn2 ++ closeTag ++ a).drop i) = false) →
      (∀ i, i < inn2.length → matchesAt closeTag ((inn2 ++ closeTag ++ a).drop i) = false) →
      searchSplit a = none →
      codec_extract (String.mk
          (b1 ++ openTag ++ inn1 ++ closeTag ++ (mid ++ openTag ++ inn2 ++ closeTag ++ a))) =
        (some (String.mk (trimList inn1)), String.mk (trimList (b1 ++ mid ++ a))) := by
  intro b1 inn1 mid inn2 a h1 h2 h3 h4 h5
  have hs2 : searchSplit (mid ++ openTag ++ inn2 ++ closeTag ++ a) = some (mid, inn2, a) :=
    searchSplit_append mid inn2 a h3 h4
  have hs1 : searchSplit
      (b1 ++ openTag ++ inn1 ++ closeTag ++ (mid ++ openTag ++ inn2 ++ closeTag ++ a)) =
      some (b1, inn1, mid ++ openTag ++ inn2 ++ closeTag ++ a) :=
    searchSplit_append b1 inn1 (mid ++ openTag ++ inn2 ++ closeTag ++ a) h1 h2
  have hr : removeAll
      (b1 ++ openTag ++ inn1 ++ closeTag ++ (mid ++ openTag ++ inn2 ++ closeTag ++ a)) =
      b1 ++ mid ++ a := by
    rw [removeAll_eq_some _ _ _ _ hs1, removeAll_eq_some _ _ _ _ hs2, removeAll_eq_none a h5,
      ← List.append_assoc]
  rw [codec_extract_mk, hs1, hr]

/-- C6 amended, witness. -/
theorem codec_first_of_two_witness :
    ((∀ i, i < ([] : List Char).length → matchesAt openTag
        ((([] : List Char) ++ openTag ++ "a".data ++ closeTag ++
          ("X".data ++ openTag ++ "b".data ++ closeTag ++ ([] : List Char))).drop i) = false) ∧
     searchSplit ([] : List Char) = none) ∧
    codec_extract (String.mk
        (([] : List Char) ++ openTag ++ "a".data ++ closeTag ++
         ("X".data ++ openTag ++ "b".data ++ closeTag ++ ([] : List Char)))) =
      (some (String.mk (trimList "a".data)),
       String.mk (trimList (([] : List Char) ++ "X".data ++ ([] : List Char)))) :=
  ⟨⟨by decide, by decide⟩,
   codec_first_of_two [] "a".data "X".data "b".data []
     (by decide) (by decide) (by decide) (by decide) (by decide)⟩

/-- C9 counterexample: a tagged span containing only whitespace yields an
extracted directive whose instruction is the empty string, contradicting
non-emptiness. -/
theorem codec_empty_instruction :
    codec_extract "<gemini-cli> </gemini-cli>ok" = (some "", "ok") := by decide

/-- C9 amended: every extracted instruction is trimmed — it has no leading
and no trailing whitespace (but it may be empty). -/
theorem extracted_instruction_trimmed (ai d c : String)
    (h : codec_extract ai = (some d, c)) :
    d.data.dropWhile pyWs = d.data ∧ d.data.reverse.dropWhile pyWs = d.data.reverse := by
  cases ai with
  | mk L =>
    rw [codec_extract_mk] at h
    cases hs : searchSplit L with
    | none => rw [hs] at h; simp at h
    | some x =>
      rw [hs] at h
      simp only [Prod.mk.injEq, Option.some.injEq] at h
      obtain ⟨h1, h2⟩ := h
      subst h1
      exact ⟨trimList_left_clean _, trimList_right_clean _⟩

/-- C9 amended, witness. -/
theorem extracted_instruction_trimmed_witness :
    codec_extract "<gemini-cli> hi </gemini-cli>" = (some "hi", "") ∧
    (("hi" : String).data.dropWhile pyWs = ("hi" : String).data ∧
     ("hi" : String).data.reverse.dropWhile pyWs = ("hi" : String).data.reverse) :=
  ⟨by decide, extracted_instruction_trimmed "<gemini-cli> hi </gemini-cli>" "hi" "" (by decide)⟩

/-- C8: both runner modes validate the workdir up front; shell mode returns
a formatted error string (no exception), tool mode raises a typed
`FileNotFoundError`, and the orchestrator renders a caught tool exception
as the user-facing error message. -/
theorem workdir_validation_asymmetry :
    (∀ (fs : PyPath → Bool) (home : PyPath)
        (shellExec : String → Option PyPath → ShellOutcome) (cmd : String) (w : PyPath),
      fs ((w.expanduser home).resolve) = false →
      execute_command fs home shellExec cmd (some w) =
        "Error: Directory \x27" ++ ((w.expanduser home).resolve).render ++ "\x27 not found.") ∧
    (∀ (fs : PyPath → Bool) (home : PyPath)
        (toolExec : String → Option PyPath → ToolOutcome) (instr : String) (w : PyPath),
      fs ((w.expanduser home).resolve) = false →
      run_gemini fs home toolExec instr (some w) =
        Except.error (GeminiExn.fileNotFound
          ("workdir \x27" ++ ((w.expanduser home).resolve).render ++ "\x27 is not an existing directory"))) ∧
    (∀ e : GeminiExn, gemini_result_message (Except.error e) =
      "Gemini-CLIの実行中にエラーが発生しました:\n" ++ e.text) := by
  refine ⟨?_, ?_, ?_⟩
  · intro fs home shellExec cmd w h
    simp [execute_command, h]
  · intro fs home toolExec instr w h
    simp [run_gemini, h]
  · intro e
    rfl

/-- C8, witness. -/
theorem workdir_validation_asymmetry_witness :
    ((fun (_ : PyPath) => false) ((PyPath.mk true ["gone"]).expanduser (PyPath.mk true ["home"])).resolve = false) ∧
    execute_command (fun _ => false) (PyPath.mk true ["home"])
        (fun _ _ => ShellOutcome.completed "" "") "ls" (some (PyPath.mk true ["gone"])) =
      "Error: Directory \x27" ++ (((PyPath.mk true ["gone"]).expanduser (PyPath.mk true ["home"])).resolve).render ++ "\x27 not found." ∧
    run_gemini (fun _ => false) (PyPath.mk true ["home"])
        (fun _ _ => ToolOutcome.completed 0 "" "") "do it" (some (PyPath.mk true ["gone"])) =
      Except.error (GeminiExn.fileNotFound
        ("workdir \x27" ++ (((PyPath.mk true ["gone"]).expanduser (PyPath.mk true ["home"])).resolve).render ++ "\x27 is not an existing directory")) ∧
    gemini_result_message (Except.error (GeminiExn.runtimeError "boom")) =
      "Gemini-CLIの実行中にエラーが発生しました:\n" ++ (GeminiExn.runtimeError "boom").text :=
  ⟨by decide,
   workdir_validation_asymmetry.1 (fun _ => false) (PyPath.mk true ["home"])
     (fun _ _ => ShellOutcome.completed "" "") "ls" (PyPath.mk true ["gone"]) (by decide),
   workdir_validation_asymmetry.2.1 (fun _ => false) (PyPath.mk true ["home"])
     (fun _ _ => ToolOutcome.completed 0 "" "") "do it" (PyPath.mk true ["gone"]) (by decide),
   workdir_validation_asymmetry.2.2 (GeminiExn.runtimeError "boom")⟩

/-- C7: for a `!cd <path>` command the requested path is home-expanded and,
when not absolute, resolved against the session's current workdir; if the
resolved target is not an existing directory the session workdir is
unchanged and the reply names the path, otherwise the workdir becomes the
resolved absolute path and the reply contains it.  The hypothesis `hfs`
states that directory existence is invariant under lexical normalization
(true of a real filesystem without symlinks), matching the code's check of
the unresolved target against the claim's resolved one. -/
theorem cd_change_workdir_update (ctx : Ctx) (userId : String) (workdir : PyPath)
    (msg arg : String)
    (hc : classify msg = RouteResult.workdirChange arg)
    (hfs : ctx.fs (cd_target ctx.home workdir arg) =
           ctx.fs (cd_target ctx.home workdir arg).resolve) :
    (ctx.fs (cd_target ctx.home workdir arg).resolve = false →
      (handle_message ctx userId workdir msg).workdirAfter = workdir ∧
      (handle_message ctx userId workdir msg).deliveries =
        [Delivery.reply ("エラー: ディレクトリ \x27" ++ (cd_target ctx.home workdir arg).render ++
          "\x27 が見つかりません。")]) ∧
    (ctx.fs (cd_target ctx.home workdir arg).resolve = true →
      (handle_message ctx userId workdir msg).workdirAfter =
        (cd_target ctx.home workdir arg).resolve ∧
      (handle_message ctx userId workdir msg).deliveries =
        [Delivery.reply ("作業ディレクトリが次に変更されました:\n" ++
          (cd_target ctx.home workdir arg).resolve.render)]) := by
  constructor
  · intro hdir
    have hf : ctx.fs (cd_target ctx.home workdir arg) = false := by rw [hfs, hdir]
    simp [handle_message, hc, hf]
  · intro hdir
    have hf : ctx.fs (cd_target ctx.home workdir arg) = true := by rw [hfs, hdir]
    simp [handle_message, hc, hf]

def ctxCd : Ctx :=
  ⟨fun p => decide (p = PyPath.mk true ["tmp"]), PyPath.mk true ["home", "u"],
   PyPath.mk true ["srv"], "sys", fun _ _ => Except.ok "", fun _ _ => ToolOutcome.completed 0 "" "",
   fun _ _ => ShellOutcome.completed "" "", []⟩

/-- C7, witness. -/
theorem cd_change_workdir_update_witness :
    (classify "!cd /tmp" = RouteResult.workdirChange "/tmp" ∧
     ctxCd.fs (cd_target ctxCd.home (PyPath.mk true ["w"]) "/tmp") =
       ctxCd.fs (cd_target ctxCd.home (PyPath.mk true ["w"]) "/tmp").resolve) ∧
    ((ctxCd.fs (cd_target ctxCd.home (PyPath.mk true ["w"]) "/tmp").resolve = false →
      (handle_message ctxCd "U" (PyPath.mk true ["w"]) "!cd /tmp").workdirAfter = PyPath.mk true ["w"] ∧
      (handle_message ctxCd "U" (PyPath.mk true ["w"]) "!cd /tmp").deliveries =
        [Delivery.reply ("エラー: ディレクトリ \x27" ++ (cd_target ctxCd.home (PyPath.mk true ["w"]) "/tmp").render ++
          "\x27 が見つかりません。")]) ∧
     (ctxCd.fs (cd_target ctxCd.home (PyPath.mk true ["w"]) "/tmp").resolve = true →
      (handle_message ctxCd "U" (PyPath.mk true ["w"]) "!cd /tmp").workdirAfter =
        (cd_target ctxCd.home (PyPath.mk true ["w"]) "/tmp").resolve ∧
      (handle_message ctxCd "U" (PyPath.mk true ["w"]) "!cd /tmp").deliveries =
        [Delivery.reply ("作業ディレクトリが次に変更されました:\n" ++
          (cd_target ctxCd.home (PyPath.mk true ["w"]) "/tmp").resolve.render)])) :=
  ⟨⟨by decide, by decide⟩,
   cd_change_workdir_update ctxCd "U" (PyPath.mk true ["w"]) "!cd /tmp" "/tmp"
     (by decide) (by decide)⟩

def ctxModelFail : Ctx :=
  ⟨fun _ => true, PyPath.mk true ["home"], PyPath.mk true ["srv"], "sys",
   fun _ _ => Except.error "QuotaError", fun _ _ => ToolOutcome.completed 0 "" "",
   fun _ _ => ShellOutcome.completed "" "", []⟩

/-- C4 counterexample: when the model-completion collaborator raises, the
handler delivers *no* message at all — the exception escapes uncaught — so
"exactly one generic error message is delivered" is false. -/
theorem model_failure_no_error_reply :
    (handle_message ctxModelFail "U" (PyPath.mk true ["w"]) "こんにちは").deliveries = [] ∧
    (handle_message ctxModelFail "U" (PyPath.mk true ["w"]) "こんにちは").uncaught = some "QuotaError" := by
  exact ⟨by decide, by decide⟩

/-- C4 amended: a model-completion failure on a conversational message
propagates uncaught out of the handler: no message is delivered, the tool
is never run, and history is not appended for that turn. -/
theorem model_failure_propagates (ctx : Ctx) (userId : String) (workdir : PyPath)
    (msg e : String)
    (hc : classify msg = RouteResult.conversational msg)
    (hm : ctx.modelComplete (ctx.histLoaded ++ [⟨"user", [msg]⟩]) ctx.systemPrompt =
          Except.error e) :
    handle_message ctx userId workdir msg = ⟨[], workdir, none, [], some e⟩ := by
  simp [handle_message, hc, hm]

/-- C4 amended, witness. -/
theorem model_failure_propagates_witness :
    (classify "やあ" = RouteResult.conversational "やあ" ∧
     ctxModelFail.modelComplete (ctxModelFail.histLoaded ++ [⟨"user", ["やあ"]⟩])
       ctxModelFail.systemPrompt = Except.error "QuotaError") ∧
    handle_message ctxModelFail "U" (PyPath.mk true ["w"]) "やあ" =
      ⟨[], PyPath.mk true ["w"], none, [], some "QuotaError"⟩ :=
  ⟨⟨by decide, rfl⟩,
   model_failure_propagates ctxModelFail "U" (PyPath.mk true ["w"]) "やあ" "QuotaError"
     (by decide) rfl⟩

def ctxDemo : Ctx :=
  ⟨fun _ => true, PyPath.mk true ["home"], PyPath.mk true ["srv"], "sys",
   fun _ _ => Except.ok "<gemini-cli>do</gemini-cli>note",
   fun _ _ => ToolOutcome.completed 0 "output" "",
   fun _ _ => ShellOutcome.completed "" "", []⟩

/-- C2 counterexample: on the interaction `"!cdx"` the handler raises
`UnboundLocalError` before any delivery, so the acknowledged primitive is
invoked zero times, not exactly once. -/
theorem sequencer_cdx_zero_acks :
    ackCount (handle_message ctxDemo "U" (PyPath.mk true ["w"]) "!cdx").deliveries = 0 ∧
    (handle_message ctxDemo "U" (PyPath.mk true ["w"]) "!cdx").uncaught ≠ none := by
  exact ⟨by decide, by decide⟩

/-- C2 amended: for every interaction whose handling completes without an
exception, the reply-token (acknowledged) primitive is used exactly once
and first; any further delivery uses the addressed push channel.  On the
conversational path with a directive: non-empty commentary is acknowledged
and the tool result pushed; empty commentary makes the tool result itself
the acknowledged reply; without a directive the full model output is
acknowledged; on command paths the single resulting message is
acknowledged. -/
theorem reply_sequencer_ack_once (ctx : Ctx) (userId : String) (workdir : PyPath) (msg : String)
    (h : (handle_message ctx userId workdir msg).uncaught = none) :
    ackCount (handle_message ctx userId workdir msg).deliveries = 1 ∧
    ((∃ t, (handle_message ctx userId workdir msg).deliveries = [Delivery.reply t]) ∨
     (∃ t r, (handle_message ctx userId workdir msg).deliveries =
        [Delivery.reply t, Delivery.push userId r])) ∧
    (∀ ai pre inn post,
      classify msg = RouteResult.conversational msg →
      ctx.modelComplete (ctx.histLoaded ++ [⟨"user", [msg]⟩]) ctx.systemPrompt = Except.ok ai →
      searchSplit ai.data = some (pre, inn, post) →
      (String.mk (trimList (removeAll ai.data)) ≠ "" →
        (handle_message ctx userId workdir msg).deliveries =
          [Delivery.reply (String.mk (trimList (removeAll ai.data))),
           Delivery.push userId (gemini_result_message
             (run_gemini ctx.fs ctx.home ctx.toolExec (String.mk (trimList inn)) (some workdir)))]) ∧
      (String.mk (trimList (removeAll ai.data)) = "" →
        (handle_message ctx userId workdir msg).deliveries =
          [Delivery.reply (gemini_result_message
             (run_gemini ctx.fs ctx.home ctx.toolExec (String.mk (trimList inn)) (some workdir)))])) ∧
    (∀ ai,
      classify msg = RouteResult.conversational msg →
      ctx.modelComplete (ctx.histLoaded ++ [⟨"user", [msg]⟩]) ctx.systemPrompt = Except.ok ai →
      searchSplit ai.data = none →
      (handle_message ctx userId workdir msg).deliveries = [Delivery.reply ai]) ∧
    ((∀ t, classify msg ≠ RouteResult.conversational t) →
      ∃ t, (handle_message ctx userId workdir msg).deliveries = [Delivery.reply t]) := by
  cases hc : classify msg with
  | workdirReset =>
    have hout : (handle_message ctx userId workdir msg).deliveries =
        [Delivery.reply ("作業ディレクトリがデフォルトに戻りました:
" ++ ctx.defaultWorkdir.render)] := by
      simp [handle_message, hc]
    refine ⟨?_, Or.inl ⟨_, hout⟩, ?_, ?_, fun _ => ⟨_, hout⟩⟩
    · rw [hout]; simp [ackCount, Delivery.isAck]
    · intro ai pre inn post hcc
      exact absurd hcc (by simp)
    · intro ai hcc
      exact absurd hcc (by simp)
  | workdirChange arg =>
    by_cases hdir : ctx.fs (cd_target ctx.home workdir arg)
    · have hout : (handle_message ctx userId workdir msg).deliveries =
          [Delivery.reply ("作業ディレクトリが次に変更されました:
" ++
            (cd_target ctx.home workdir arg).resolve.render)] := by
        simp [handle_message, hc, hdir]
      refine ⟨?_, Or.inl ⟨_, hout⟩, ?_, ?_, fun _ => ⟨_, hout⟩⟩
      · rw [hout]; simp [ackCount, Delivery.isAck]
      · intro ai pre inn post hcc
        exact absurd hcc (by simp)
      · intro ai hcc
        exact absurd hcc (by simp)
    · have hout : (handle_message ctx userId workdir msg).deliveries =
          [Delivery.reply ("エラー: ディレクトリ \x27" ++ (cd_target ctx.home workdir arg).render ++
            "\x27 が見つかりません。")] := by
        simp [handle_message, hc, hdir]
      refine ⟨?_, Or.inl ⟨_, hout⟩, ?_, ?_, fun _ => ⟨_, hout⟩⟩
      · rw [hout]; simp [ackCount, Delivery.isAck]
      · intro ai pre inn post hcc
        exact absurd hcc (by simp)
      · intro ai hcc
        exact absurd hcc (by simp)
  | unboundLocalError =>
    exfalso
    simp [handle_message, hc] at h
  | workdirQuery =>
    have hout : (handle_message ctx userId workdir msg).deliveries =
        [Delivery.reply ("現在の作業ディレクトリ:\n" ++ workdir.render)] := by
      simp [handle_message, hc]
    refine ⟨?_, Or.inl ⟨_, hout⟩, ?_, ?_, fun _ => ⟨_, hout⟩⟩
    · rw [hout]; simp [ackCount, Delivery.isAck]
    · intro ai pre inn post hcc
      exact absurd hcc (by simp)
    · intro ai hcc
      exact absurd hcc (by simp)
  | directCommand cmd =>
    have hout : (handle_message ctx userId workdir msg).deliveries =
        [Delivery.reply (execute_command ctx.fs ctx.home ctx.shellExec cmd (some workdir))] := by
      simp [handle_message, hc]
    refine ⟨?_, Or.inl ⟨_, hout⟩, ?_, ?_, fun _ => ⟨_, hout⟩⟩
    · rw [hout]; simp [ackCount, Delivery.isAck]
    · intro ai pre inn post hcc
      exact absurd hcc (by simp)
    · intro ai hcc
      exact absurd hcc (by simp)
  | conversational t =>
    cases hm : ctx.modelComplete (ctx.histLoaded ++ [⟨"user", [msg]⟩]) ctx.systemPrompt with
    | error e =>
      exfalso
      simp [handle_message, hc, hm] at h
    | ok ai =>
      cases hsp : searchSplit ai.data with
      | none =>
        have hout : (handle_message ctx userId workdir msg).deliveries = [Delivery.reply ai] := by
          simp [handle_message, hc, hm, hsp]
        refine ⟨?_, Or.inl ⟨ai, hout⟩, ?_, ?_, fun hno => absurd rfl (hno t)⟩
        · rw [hout]; simp [ackCount, Delivery.isAck]
        · intro ai' pre inn post hcc hm' hsp'
          injection hm' with hai
          subst hai
          rw [hsp] at hsp'
          exact absurd hsp' (by simp)
        · intro ai' hcc hm' hsp'
          injection hm' with hai
          subst hai
          exact hout
      | some x =>
        obtain ⟨pre0, inn0, post0⟩ := x
        by_cases hsupp : String.mk (trimList (removeAll ai.data)) = ""
        · have hout : (handle_message ctx userId workdir msg).deliveries =
              [Delivery.reply (gemini_result_message
                (run_gemini ctx.fs ctx.home ctx.toolExec (String.mk (trimList inn0)) (some workdir)))] := by
            simp [handle_message, hc, hm, hsp, hsupp]
          refine ⟨?_, Or.inl ⟨_, hout⟩, ?_, ?_, fun hno => absurd rfl (hno t)⟩
          · rw [hout]; simp [ackCount, Delivery.isAck]
          · intro ai' pre inn post hcc hm' hsp'
            injection hm' with hai
            subst hai
            rw [hsp] at hsp'
            injection hsp' with h3
            injection h3 with h4 h56
            injection h56 with h5 h6
            subst h4; subst h5; subst h6
            exact ⟨fun hne => absurd hsupp hne, fun _ => hout⟩
          · intro ai' hcc hm' hsp'
            injection hm' with hai
            subst hai
            rw [hsp] at hsp'
            exact absurd hsp' (by simp)
        · have hout : (handle_message ctx userId workdir msg).deliveries =
              [Delivery.reply (String.mk (trimList (removeAll ai.data))),
               Delivery.push userId (gemini_result_message
                (run_gemini ctx.fs ctx.home ctx.toolExec (String.mk (trimList inn0)) (some workdir)))] := by
            simp [handle_message, hc, hm, hsp, hsupp]
          refine ⟨?_, Or.inr ⟨_, _, hout⟩, ?_, ?_, fun hno => absurd rfl (hno t)⟩
          · rw [hout]; simp [ackCount, Delivery.isAck]
          · intro ai' pre inn post hcc hm' hsp'
            injection hm' with hai
            subst hai
            rw [hsp] at hsp'
            injection hsp' with h3
            injection h3 with h4 h56
            injection h56 with h5 h6
            subst h4; subst h5; subst h6
            exact ⟨fun _ => hout, fun heq => absurd heq hsupp⟩
          · intro ai' hcc hm' hsp'
            injection hm' with hai
            subst hai
            rw [hsp] at hsp'
            exact absurd hsp' (by simp)

/-- C2 amended, witness. -/
theorem reply_sequencer_ack_once_witness :
    (handle_message ctxDemo "U" (PyPath.mk true ["w"]) "hello").uncaught = none ∧
    ackCount (handle_message ctxDemo "U" (PyPath.mk true ["w"]) "hello").deliveries = 1 :=
  ⟨by decide,
   (reply_sequencer_ack_once ctxDemo "U" (PyPath.mk true ["w"]) "hello" (by decide)).1⟩

/-- C10: each `save_history` call appends exactly one user entry followed by
one model entry bearing the identical timestamp; consequently, for any
cutoff, `load_history` over a file built by such appends returns the
complete user/model pairs of the saves newer than the cutoff, oldest first
(in save order, which is timestamp order when saves have monotone
timestamps) — the window never separates a pair. -/
theorem history_pairs_window_safe (saves : List (Nat × String × String)) (limit : Nat)
    (hmono : saves.Pairwise fun s t => s.1 ≤ t.1) :
    load_history (replay_saves saves) limit =
      (saves.filter fun s => decide (limit < s.1)).flatMap
        (fun s => [⟨"user", [s.2.1]⟩, ⟨"model", [s.2.2]⟩]) ∧
    ((saves.filter fun s => decide (limit < s.1)).Pairwise fun s t => s.1 ≤ t.1) ∧
    (∀ file now u m, save_history file now u m =
      file ++ [⟨now, "user", u⟩, ⟨now, "model", m⟩]) := by
  refine ⟨?_, List.Pairwise.filter _ hmono, fun _ _ _ _ => rfl⟩
  clear hmono
  have hreplay : ∀ (ss : List (Nat × String × String)) (acc : List HistEntry),
      List.foldl (fun f s => save_history f s.1 s.2.1 s.2.2) acc ss =
        acc ++ ss.flatMap (fun s => [⟨s.1, "user", s.2.1⟩, ⟨s.1, "model", s.2.2⟩]) := by
    intro ss
    induction ss with
    | nil => intro acc; simp
    | cons s rest ih =>
      intro acc
      rw [List.foldl_cons, ih]
      simp [save_history]
  rw [replay_saves, hreplay, List.nil_append]
  induction saves with
  | nil => simp [load_history]
  | cons s rest ih =>
    simp only [List.flatMap_cons, List.filter_cons]
    by_cases hkeep : limit < s.1
    · simp only [load_history, List.filter_append, List.map_append] at ih ⊢
      simp [hkeep, ih]
    · simp only [load_history, List.filter_append, List.map_append] at ih ⊢
      simp [hkeep, ih]

/-- C10, witness. -/
theorem history_pairs_window_safe_witness :
    ([((1 : Nat), "a", "b"), ((2 : Nat), "c", "d")].Pairwise
      fun s t => s.1 ≤ t.1) ∧
    load_history (replay_saves [((1 : Nat), "a", "b"), ((2 : Nat), "c", "d")]) 1 =
      ([((1 : Nat), "a", "b"), ((2 : Nat), "c", "d")].filter fun s => decide ((1 : Nat) < s.1)).flatMap
        (fun s => [⟨"user", [s.2.1]⟩, ⟨"model", [s.2.2]⟩]) :=
  ⟨by decide,
   (history_pairs_window_safe [((1 : Nat), "a", "b"), ((2 : Nat), "c", "d")] 1 (by decide)).1⟩
